import Mathlib

/-
Shallow embedding of render.go (package render): a Martini middleware for
JSON/XML serialization and HTML/TEXT template rendering with layout/yield
support, plus its template compiler and buffer-pool usage.

Modelling conventions:
- Go strings are Lean Strings; Go association structures are association
  lists.  A Go map[string]interface value is a reference, so those maps live
  in an explicit heap (address -> entries) and a GoValue.strMap carries the
  address; this makes the aliasing of Go map arguments observable.
- Stdlib collaborators (encoding/json, encoding/xml, net/http's Error and
  Redirect, filepath.Walk, the bpool buffer pool) are modelled by executable
  functions over the value fragment this package handles.  The filesystem
  walk is an explicit input list of the entries filepath.Walk visits, in
  visit order, each carrying the error argument filepath.Walk would pass.
- Template bodies are parsed into a small piece AST covering literal text
  and the yield / current actions, the template constructs this package's
  layout machinery (and the claims) exercise.  Recursion through yield uses
  an explicit fuel parameter modelling the Go call stack.
- The buffer pool is modelled by counting Get and Put calls; the pool's
  bounded capacity does not affect the acquire/release discipline.
-/

namespace Render

-- Constants from render.go lines 55-64.
def ContentType : String := "Content-Type"
def ContentBinary : String := "application/octet-stream"
def ContentJSON : String := "application/json"
def ContentHTML : String := "text/html"
def ContentXML : String := "text/xml"
def defaultCharset : String := "UTF-8"

/-- Go interface-typed values handled by the renderer: the nil interface,
booleans, integers, strings, string-keyed maps (as heap addresses, so the
reference semantics of Go maps is observable) and non-serializable values
such as channels or functions, carrying their Go type name. -/
inductive GoValue where
  | null
  | boolean (b : Bool)
  | int (n : Int)
  | str (s : String)
  | strMap (addr : Nat)
  | unsupported (typeName : String)
deriving DecidableEq

/-- Heap of Go map[string]interface objects: address to entry list. -/
def Heap : Type := List (Nat × List (String × GoValue))

instance : DecidableEq Heap := by
  unfold Heap
  infer_instance

/-- Association-list lookup (first binding of the key wins). -/
def assocGet {κ α : Type} [DecidableEq κ] : List (κ × α) → κ → Option α
  | [], _ => none
  | (k', v) :: rest, k => if k' = k then some v else assocGet rest k

/-- Association-list update: replace the first binding of the key, or append
a new binding at the end, mirroring assignment into a Go map. -/
def assocUpd {κ α : Type} [DecidableEq κ] : List (κ × α) → κ → α → List (κ × α)
  | [], k, v => [(k, v)]
  | (k', v') :: rest, k, v =>
      if k' = k then (k, v) :: rest else (k', v') :: assocUpd rest k v

def heapGet (heap : Heap) (addr : Nat) : Option (List (String × GoValue)) :=
  assocGet heap addr

def heapSet (heap : Heap) (addr : Nat) (m : List (String × GoValue)) : Heap :=
  assocUpd heap addr m

/-- The Extra merge loop of renderer.HTML (lines 310-312): each key/value
string pair of opt.Extra is assigned into the map. -/
def mergeExtra (m : List (String × GoValue)) (extra : List (String × String)) :
    List (String × GoValue) :=
  extra.foldl (fun acc kv => assocUpd acc kv.1 (GoValue.str kv.2)) m

/-- Whether the second character list starts with the first. -/
def leadsWith : List Char → List Char → Bool
  | [], _ => true
  | _ :: _, [] => false
  | a :: as, b :: bs => a = b && leadsWith as bs

/-- Split a character list on a non-empty separator sequence; the fuel is
at least the list length, so it never runs out. -/
def splitOnSeq (sep : List Char) : Nat → List Char → List Char → List (List Char)
  | _, [], acc => [acc.reverse]
  | 0, s, acc => [acc.reverse ++ s]
  | fuel + 1, c :: rest, acc =>
    if leadsWith sep (c :: rest) then
      acc.reverse :: splitOnSeq sep fuel ((c :: rest).drop sep.length) []
    else splitOnSeq sep fuel rest (c :: acc)

/-- strings.Split for a non-empty separator. -/
def splitOnStr (sep : String) (s : String) : List String :=
  (splitOnSeq sep.data (s.data.length + 1) s.data []).map (fun cs => String.mk cs)

/-- strings.Join. -/
def joinWith (sep : String) : List String → String
  | [] => ""
  | [x] => x
  | x :: y :: rest => x ++ sep ++ joinWith sep (y :: rest)

-- Model of encoding/json string quoting for the character range used here.
def jsonEscapeChar (c : Char) : String :=
  if c = '\"' then "\\\""
  else if c = '\\' then "\\\\"
  else if c = '\n' then "\\n"
  else String.singleton c

def jsonQuote (s : String) : String :=
  "\"" ++ String.join (s.toList.map jsonEscapeChar) ++ "\""

/-- Model of json.Marshal (compact form) on the GoValue fragment.  The fuel
bounds dereference depth through the heap; running out of it models the
cycle detection of encoding/json.  A dangling address is a nil map, which
marshals to null.  Unsupported values produce the Go error text. -/
def jsonEnc (heap : Heap) : Nat → GoValue → Except String String
  | 0, _ => .error "json: unsupported value: encountered a cycle"
  | fuel + 1, v =>
    match v with
    | .null => .ok "null"
    | .boolean b => .ok (if b then "true" else "false")
    | .int n => .ok (toString n)
    | .str s => .ok (jsonQuote s)
    | .strMap a =>
      match heapGet heap a with
      | none => .ok "null"
      | some m => do
        let parts ← m.mapM (fun kv =>
          (jsonEnc heap fuel kv.2).map (fun s => jsonQuote kv.1 ++ ":" ++ s))
        .ok ("\x7b" ++ joinWith "," parts ++ "\x7d")
    | .unsupported t => .error ("json: unsupported type: " ++ t)

def indentN (n : Nat) : String := String.join (List.replicate n "  ")

/-- Model of json.MarshalIndent with empty line prefix and a two-space
indent, on the same fragment as jsonEnc. -/
def jsonEncI (heap : Heap) : Nat → Nat → GoValue → Except String String
  | 0, _, _ => .error "json: unsupported value: encountered a cycle"
  | fuel + 1, lvl, v =>
    match v with
    | .null => .ok "null"
    | .boolean b => .ok (if b then "true" else "false")
    | .int n => .ok (toString n)
    | .str s => .ok (jsonQuote s)
    | .strMap a =>
      match heapGet heap a with
      | none => .ok "null"
      | some [] => .ok "\x7b\x7d"
      | some m => do
        let parts ← m.mapM (fun kv =>
          (jsonEncI heap fuel (lvl + 1) kv.2).map
            (fun s => indentN (lvl + 1) ++ jsonQuote kv.1 ++ ": " ++ s))
        .ok ("\x7b\n" ++ joinWith ",\n" parts ++ "\n" ++ indentN lvl ++ "\x7d")
    | .unsupported t => .error ("json: unsupported type: " ++ t)

/-- The serialization choice of renderer.JSON lines 282-286: MarshalIndent
when IndentJSON is set, Marshal otherwise. -/
def jsonSerialize (indentJSON : Bool) (heap : Heap) (fuel : Nat) (v : GoValue) :
    Except String String :=
  if indentJSON then jsonEncI heap fuel 0 v else jsonEnc heap fuel v

/-- Model of xml.Marshal on the GoValue fragment: primitives marshal to a
single element named after their Go type; maps, the nil interface and other
unsupported values fail with the Go error text. -/
def xmlEncVal : GoValue → Except String String
  | .null => .error "xml: unsupported type: invalid"
  | .boolean b => .ok ("<bool>" ++ (if b then "true" else "false") ++ "</bool>")
  | .int n => .ok ("<int>" ++ toString n ++ "</int>")
  | .str s => .ok ("<string>" ++ s ++ "</string>")
  | .strMap _ => .error "xml: unsupported type: map[string]interface \x7b\x7d"
  | .unsupported t => .error ("xml: unsupported type: " ++ t)

/-- The serialization choice of renderer.XML lines 357-362; on this flat
fragment MarshalIndent and Marshal produce the same bytes. -/
def xmlSerialize (indentXML : Bool) (v : GoValue) : Except String String :=
  if indentXML then xmlEncVal v else xmlEncVal v

/-- A parsed template body piece: literal text, or one of the two reserved
helper actions.  This is the template-language fragment the package's
layout machinery manipulates. -/
inductive Piece where
  | lit (s : String)
  | yieldCall
  | currentCall
deriving DecidableEq

/-- Parse the current actions of a delimiter-default template source. -/
def parseCurrentPieces (s : String) : List Piece :=
  ((splitOnStr "\x7b\x7bcurrent\x7d\x7d" s).map Piece.lit).intersperse Piece.currentCall

/-- Parse a template source at the default delimiters into pieces, for
bodies made of literal text and the yield / current actions. -/
def parseTmpl (s : String) : List Piece :=
  (((splitOnStr "\x7b\x7byield\x7d\x7d" s).map parseCurrentPieces).intersperse
    [Piece.yieldCall]).flatten

/-- The binding state of the reserved yield / current function pair of one
template tree.  placeholder is the compile-time state (lines 70-85): yield
fails with "yield called with no layout defined" and current returns "".
boundHtml / boundText are the closures installed by addYieldHtml /
addYieldText (lines 419-444), capturing the inner template name and binding;
they render the inner template through executeHtml resp. executeText. -/
inductive FuncBinding where
  | placeholder
  | boundHtml (name : String) (binding : GoValue)
  | boundText (name : String) (binding : GoValue)
deriving DecidableEq

/-- One template tree: the named templates (all sharing one function table,
as a Go template set does) and the current yield / current binding.  User
FuncMaps from Options are not modelled: they are arbitrary Go functions and
no claim touches them. -/
structure Tree where
  tmpls : List (String × List Piece)
  funcs : FuncBinding
deriving DecidableEq

def lookupTmpl (tmpls : List (String × List Piece)) (name : String) :
    Option (List Piece) :=
  assocGet tmpls name

inductive Flavor where
  | html
  | text
deriving DecidableEq

/-- Options (lines 121-146).  The Funcs slices and the Delims pair are not
modelled: the parser above works at the default delimiters and user FuncMaps
are arbitrary Go functions outside every claim. -/
structure Options where
  Directory : String := ""
  Layout : String := ""
  Extensions : List String := []
  Charset : String := ""
  IndentJSON : Bool := false
  IndentXML : Bool := false
  PrefixJSON : String := ""
  PrefixXML : String := ""
  HTMLContentType : String := ""
  Extra : List (String × String) := []
deriving DecidableEq

/-- HTMLOptions (lines 149-153). -/
structure HTMLOptions where
  Layout : String := ""
  Extra : List (String × String) := []
deriving DecidableEq

/-- prepareCharset (lines 181-187). -/
def prepareCharset (charset : String) : String :=
  if charset.length ≠ 0 then "; charset=" ++ charset
  else "; charset=" ++ defaultCharset

/-- prepareOptions (lines 189-207): first variadic argument or the zero
value, then defaulting of Directory, Extensions and HTMLContentType. -/
def prepareOptions (options : List Options) : Options :=
  let opt : Options := match options with
    | o :: _ => o
    | [] => {}
  let opt := if opt.Directory.length = 0 then { opt with Directory := "templates" } else opt
  let opt := if opt.Extensions.length = 0 then { opt with Extensions := [".tmpl"] } else opt
  if opt.HTMLContentType.length = 0 then { opt with HTMLContentType := ContentHTML } else opt

/-- The renderer struct (lines 270-277): the two template trees, the
resolved options and the precomputed charset suffix.  The response writer
is the event list the operations below return; the request only feeds
http.Redirect and needs no state here. -/
structure Renderer where
  ht : Tree
  tt : Tree
  opt : Options
  compiledCharset : String
deriving DecidableEq

/-- Renderer construction as the factory does it (lines 163 and 177): the
charset suffix is prepareCharset of the options' Charset. -/
def mkRenderer (ht tt : Tree) (opt : Options) : Renderer :=
  { ht := ht, tt := tt, opt := opt, compiledCharset := prepareCharset opt.Charset }

/-- prepareHTMLOptions (lines 446-455). -/
def prepareHTMLOptions (r : Renderer) (htmlOpt : List HTMLOptions) : HTMLOptions :=
  match htmlOpt with
  | o :: _ => o
  | [] => { Layout := r.opt.Layout, Extra := r.opt.Extra }

/-- Observable state of the bpool buffer pool: how many buffers have been
taken with Get and how many returned with Put. -/
structure Pool where
  gets : Nat
  puts : Nat
deriving DecidableEq

def pget (st : Pool) : Pool := { st with gets := st.gets + 1 }

def pput (st : Pool) : Pool := { st with puts := st.puts + 1 }

def pool0 : Pool := ⟨0, 0⟩

/-- Execution error for a template name missing from the tree. -/
def noTemplateMsg (name dir : String) : String :=
  "template: no template \"" ++ name ++ "\" associated with template \"" ++ dir ++ "\""

/-- Fuel exhaustion message, modelling Go stack exhaustion on unbounded
yield recursion. -/
def depthMsg : String := "render: template recursion limit exceeded"

/-- Execute a list of template pieces under a function binding.  The yield
cases inline renderer.executeHtml / renderer.executeText (lines 410-417):
each takes a buffer from the pool (pget) and renders the captured inner
template on the corresponding tree with that tree's current funcs; the
closures of addYieldHtml / addYieldText never return that buffer to the
pool.  A function error aborts execution with that error, as
template.ExecuteTemplate does. -/
def execPieces (r : Renderer) :
    Nat → FuncBinding → List Piece → Pool → String → (String × Option String) × Pool
  | _, _, [], st, acc => ((acc, none), st)
  | 0, _, _ :: _, st, acc => ((acc, some depthMsg), st)
  | fuel + 1, funcs, p :: rest, st, acc =>
    match p with
    | .lit s => execPieces r fuel funcs rest st (acc ++ s)
    | .currentCall =>
      match funcs with
      | .placeholder => execPieces r fuel funcs rest st acc
      | .boundHtml n _ => execPieces r fuel funcs rest st (acc ++ n)
      | .boundText n _ => execPieces r fuel funcs rest st (acc ++ n)
    | .yieldCall =>
      match funcs with
      | .placeholder => ((acc, some "yield called with no layout defined"), st)
      | .boundHtml n _ =>
        let st1 := pget st
        match lookupTmpl r.ht.tmpls n with
        | none => ((acc, some (noTemplateMsg n r.opt.Directory)), st1)
        | some body =>
          match execPieces r fuel r.ht.funcs body st1 "" with
          | ((inner, none), st2) => execPieces r fuel funcs rest st2 (acc ++ inner)
          | ((_, some e), st2) => ((acc, some e), st2)
      | .boundText n _ =>
        let st1 := pget st
        match lookupTmpl r.tt.tmpls n with
        | none => ((acc, some (noTemplateMsg n r.opt.Directory)), st1)
        | some body =>
          match execPieces r fuel r.tt.funcs body st1 "" with
          | ((inner, none), st2) => execPieces r fuel funcs rest st2 (acc ++ inner)
          | ((_, some e), st2) => ((acc, some e), st2)

def treeOf (r : Renderer) (fl : Flavor) : Tree :=
  match fl with
  | .html => r.ht
  | .text => r.tt

/-- Common body of renderer.executeHtml / executeText (lines 410-417): Get
a buffer from the pool, then ExecuteTemplate the named template of the
selected tree into it.  The binding is passed as Go does; the piece AST has
no data actions, so its contents are not consulted. -/
def executeWith (r : Renderer) (fl : Flavor) (fuel : Nat) (name : String)
    (_binding : GoValue) (st : Pool) : (String × Option String) × Pool :=
  let st1 := pget st
  match lookupTmpl (treeOf r fl).tmpls name with
  | none => (("", some (noTemplateMsg name r.opt.Directory)), st1)
  | some body => execPieces r fuel (treeOf r fl).funcs body st1 ""

def executeHtml (r : Renderer) (fuel : Nat) (name : String) (binding : GoValue)
    (st : Pool) : (String × Option String) × Pool :=
  executeWith r .html fuel name binding st

def executeText (r : Renderer) (fuel : Nat) (name : String) (binding : GoValue)
    (st : Pool) : (String × Option String) × Pool :=
  executeWith r .text fuel name binding st

/-- addYieldHtml (lines 419-431): installs the yield / current closures,
capturing name and binding, on the html tree via r.ht.Funcs. -/
def addYieldHtml (r : Renderer) (name : String) (binding : GoValue) : Renderer :=
  { r with ht := { r.ht with funcs := .boundHtml name binding } }

/-- addYieldText (lines 432-444): the closures render through executeText,
but line 443 installs them with r.ht.Funcs — on the html tree, not the text
tree.  The model reproduces that faithfully. -/
def addYieldText (r : Renderer) (name : String) (binding : GoValue) : Renderer :=
  { r with ht := { r.ht with funcs := .boundText name binding } }

/-- Observable effects on the http.ResponseWriter. -/
inductive HttpEvent where
  | setHeader (key : String) (value : String)
  | writeHeader (status : Nat)
  | write (body : String)
  | redirect (location : String) (code : Nat)
deriving DecidableEq

/-- Model of net/http's Error helper: it sets a plain-text content type and
the nosniff header, writes the status code, and writes the message followed
by a newline (fmt.Fprintln). -/
def httpError (msg : String) (code : Nat) : List HttpEvent :=
  [ .setHeader ContentType "text/plain; charset=utf-8",
    .setHeader "X-Content-Type-Options" "nosniff",
    .writeHeader code,
    .write (msg ++ "\n") ]

def writesOf : List HttpEvent → List String
  | [] => []
  | .write s :: rest => s :: writesOf rest
  | .setHeader _ _ :: rest => writesOf rest
  | .writeHeader _ :: rest => writesOf rest
  | .redirect _ _ :: rest => writesOf rest

/-- The response body: concatenation of all writes. -/
def bodyOf : List HttpEvent → String
  | [] => ""
  | .write s :: rest => s ++ bodyOf rest
  | .setHeader _ _ :: rest => bodyOf rest
  | .writeHeader _ :: rest => bodyOf rest
  | .redirect _ _ :: rest => bodyOf rest

/-- The status codes written, in order. -/
def statusesOf : List HttpEvent → List Nat
  | [] => []
  | .writeHeader c :: rest => c :: statusesOf rest
  | .setHeader _ _ :: rest => statusesOf rest
  | .write _ :: rest => statusesOf rest
  | .redirect _ _ :: rest => statusesOf rest

/-- The values assigned to the Content-Type header, in order. -/
def contentTypesOf : List HttpEvent → List String
  | [] => []
  | .setHeader k v :: rest =>
      if k = ContentType then v :: contentTypesOf rest else contentTypesOf rest
  | .writeHeader _ :: rest => contentTypesOf rest
  | .write _ :: rest => contentTypesOf rest
  | .redirect _ _ :: rest => contentTypesOf rest

/-- renderer.JSON (lines 279-299). -/
def JSON (r : Renderer) (heap : Heap) (fuel : Nat) (status : Nat) (v : GoValue) :
    List HttpEvent :=
  match jsonSerialize r.opt.IndentJSON heap fuel v with
  | .error e => httpError e 500
  | .ok result =>
    [ .setHeader ContentType (ContentJSON ++ r.compiledCharset),
      .writeHeader status ]
    ++ (if 0 < r.opt.PrefixJSON.length then [HttpEvent.write r.opt.PrefixJSON] else [])
    ++ [HttpEvent.write result]

/-- renderer.XML (lines 355-375). -/
def XML (r : Renderer) (status : Nat) (v : GoValue) : List HttpEvent :=
  match xmlSerialize r.opt.IndentXML v with
  | .error e => httpError e 500
  | .ok result =>
    [ .setHeader ContentType (ContentXML ++ r.compiledCharset),
      .writeHeader status ]
    ++ (if 0 < r.opt.PrefixXML.length then [HttpEvent.write r.opt.PrefixXML] else [])
    ++ [HttpEvent.write result]

/-- renderer.HTML (lines 301-332).  Returns the response events, the heap
after the call (the Extra merge at lines 309-314 assigns into the very map
object the caller passed, Go maps being references) and the pool state.
The debug json.MarshalIndent + Println of the binding at lines 316-319 goes
to standard output, which is not part of the HTTP response.  On execution
failure the pooled buffer is not returned; on success it is returned after
the copy (line 331). -/
def HTML (r : Renderer) (heap : Heap) (st : Pool) (fuel : Nat) (status : Nat)
    (name : String) (binding : GoValue) (htmlOpt : List HTMLOptions) :
    List HttpEvent × Heap × Pool :=
  let opt := prepareHTMLOptions r htmlOpt
  let r1 := if 0 < opt.Layout.length then addYieldHtml r name binding else r
  let name1 := if 0 < opt.Layout.length then opt.Layout else name
  let heap1 :=
    match binding with
    | .strMap a =>
      match heapGet heap a with
      | some m => heapSet heap a (mergeExtra m opt.Extra)
      | none => heap
    | _ => heap
  match executeHtml r1 fuel name1 binding st with
  | ((_, some e), st1) => (httpError e 500, heap1, st1)
  | ((out, none), st1) =>
    ( [ .setHeader ContentType (r1.opt.HTMLContentType ++ r1.compiledCharset),
        .writeHeader status, .write out ],
      heap1, pput st1 )

/-- renderer.TEXT (lines 334-353): same shape as HTML against the text tree
(content type still HTMLContentType, line 349), with no Extra merge; the
heap passes through untouched. -/
def TEXT (r : Renderer) (heap : Heap) (st : Pool) (fuel : Nat) (status : Nat)
    (name : String) (binding : GoValue) (htmlOpt : List HTMLOptions) :
    List HttpEvent × Heap × Pool :=
  let opt := prepareHTMLOptions r htmlOpt
  let r1 := if 0 < opt.Layout.length then addYieldText r name binding else r
  let name1 := if 0 < opt.Layout.length then opt.Layout else name
  match executeText r1 fuel name1 binding st with
  | ((_, some e), st1) => (httpError e 500, heap, st1)
  | ((out, none), st1) =>
    ( [ .setHeader ContentType (r1.opt.HTMLContentType ++ r1.compiledCharset),
        .writeHeader status, .write out ],
      heap, pput st1 )

/-- renderer.Redirect (lines 394-401): http.StatusFound unless exactly one
explicit status is supplied. -/
def Redirect (_r : Renderer) (location : String) (status : List Nat) :
    List HttpEvent :=
  let code := match status with
    | [c] => c
    | _ => 302
  [HttpEvent.redirect location code]

/-- One entry of the filepath.Walk traversal, in visit order: the path
relative to the directory (filepath.Rel succeeds for every path Walk
produces under its root, so the error return at lines 224-226 cannot
trigger), the error argument Walk passes for this path, and the file
contents (none when ioutil.ReadFile would fail, e.g. for an unreadable
file, a directory, or a path Walk reported an error for). -/
structure FSEntry where
  rel : String
  walkErr : Option String
  content : Option String
deriving DecidableEq

/-- filepath.ToSlash: path separators become forward slashes. -/
def toSlash (s : String) : String :=
  String.mk (s.data.map (fun c => if c = '\\' then '/' else c))

/-- strings take of a character count, for the byte-slice name computation
of line 238 (these names are ASCII, so characters coincide with bytes). -/
def strTake (s : String) (n : Nat) : String :=
  String.mk (s.data.take n)

/-- getExt (lines 263-268): everything from the first dot onward, or "" when
the string has no dot (strings.Index of "." is -1 exactly when the split on
"." has a single part). -/
def getExt (s : String) : String :=
  if (splitOnStr "." s).length = 1 then ""
  else "." ++ joinWith "." ((splitOnStr "." s).drop 1)

/-- The tree state after lines 212-220: a root template named after the
directory holding the placeholder body "Martini", helpers at their
compile-time placeholder binding. -/
def initialTree (dir : String) : Tree :=
  { tmpls := [(dir, [Piece.lit "Martini"])], funcs := .placeholder }

def registerTmpl (t : Tree) (name : String) (body : List Piece) : Tree :=
  { t with tmpls := assocUpd t.tmpls name body }

/-- The walk callback (lines 222-258) for one visited entry.  The err
argument filepath.Walk passes is shadowed at line 223 and never read.  When
getExt of the relative path equals one of the configured extensions, the
file is read (a read failure panics, line 235: modelled as Except.error, the
only way compilation aborts) and its body is registered in both trees under
the relative path minus that extension, separators normalized. -/
def walkStep (options : Options) (acc : Tree × Tree) (e : FSEntry) :
    Except String (Tree × Tree) :=
  let ext := getExt e.rel
  if options.Extensions.contains ext then
    match e.content with
    | none => .error "panic: read failure"
    | some buf =>
      let name := toSlash (strTake e.rel (e.rel.length - ext.length))
      .ok (registerTmpl acc.1 name (parseTmpl buf),
           registerTmpl acc.2 name (parseTmpl buf))
  else .ok acc

def runWalk (options : Options) : List FSEntry → Tree × Tree →
    Except String (Tree × Tree)
  | [], acc => .ok acc
  | e :: rest, acc =>
    match walkStep options acc e with
    | .ok acc' => runWalk options rest acc'
    | .error m => .error m

/-- compile (lines 209-261) over an explicit walk trace.  The return value
of filepath.Walk itself is discarded by the source (line 222), so a walk
error never surfaces; the sole abort is the read-failure panic inside the
callback, which Except.error models. -/
def compile (options : Options) (walk : List FSEntry) :
    Except String (Tree × Tree) :=
  runWalk options walk
    (initialTree options.Directory, initialTree options.Directory)

/-
Concrete scenario material used by several results: a tree with a layout
template L whose body is "L[" yield "]" and a content template "content"
with body "hi", under the default options.
-/

def layoutTree : Tree :=
  { tmpls := [("L", [Piece.lit "L[", Piece.yieldCall, Piece.lit "]"]),
              ("content", [Piece.lit "hi"])],
    funcs := .placeholder }

def demoOpt : Options := prepareOptions []

def demoRenderer : Renderer := mkRenderer layoutTree layoutTree demoOpt

-- Scenario for the Extra merge: a caller map at address 0 and options whose
-- Extra carries one pair.
def c3heap : Heap := [(0, [("a", GoValue.str "1")])]

def c3opt : Options := { prepareOptions [] with Extra := [("b", "2")] }

def c3r : Renderer := mkRenderer layoutTree layoutTree c3opt

-- Scenario for compile: a single template file in a subdirectory, written
-- with a backslash separator so the normalization is visible.
def c4entry : FSEntry := ⟨"sub\\page.tmpl", none, some "hi"⟩

def c4init : Tree × Tree :=
  (initialTree (prepareOptions []).Directory, initialTree (prepareOptions []).Directory)

def c4name : String :=
  toSlash (strTake c4entry.rel (c4entry.rel.length - (getExt c4entry.rel).length))

/-
Helper lemmas.
-/

theorem assocGet_upd_self {κ α : Type} [DecidableEq κ]
    (l : List (κ × α)) (k : κ) (v : α) :
    assocGet (assocUpd l k v) k = some v := by
  induction l with
  | nil => simp [assocUpd, assocGet]
  | cons kv rest ih =>
    obtain ⟨k', v'⟩ := kv
    by_cases h : k' = k <;> simp [assocUpd, assocGet, h, ih]

theorem runWalk_append (options : Options) (l₁ l₂ : List FSEntry) (t : Tree × Tree) :
    runWalk options (l₁ ++ l₂) t
      = (runWalk options l₁ t).bind (fun acc => runWalk options l₂ acc) := by
  induction l₁ generalizing t with
  | nil => rfl
  | cons e rest ih =>
    simp only [List.cons_append, runWalk]
    cases walkStep options t e with
    | ok acc' => simpa using ih acc'
    | error m => rfl

theorem execPieces_nil (r : Renderer) (fuel : Nat) (funcs : FuncBinding)
    (st : Pool) (acc : String) :
    execPieces r fuel funcs [] st acc = ((acc, none), st) := by
  cases fuel <;> rfl

theorem str_len_zero {s : String} (h : s.length = 0) : s = "" := by
  cases s with
  | mk data =>
    cases data with
    | nil => rfl
    | cons c cs => simp [String.length] at h

theorem charset_split (cs : String) :
    prepareCharset cs = "; charset=" ++ (if cs = "" then defaultCharset else cs) := by
  by_cases h : cs = ""
  · subst h; rfl
  · have hl : cs.length ≠ 0 := fun hz => h (str_len_zero hz)
    simp [prepareCharset, hl, h]

theorem charset_tail_ne (cs : String) :
    (if cs = "" then defaultCharset else cs) ≠ "" := by
  by_cases h : cs = ""
  · simp [h, defaultCharset]
  · simp [h]

theorem json_ct_cases (r : Renderer) (heap : Heap) (fuel status : Nat) (v : GoValue) :
    contentTypesOf (JSON r heap fuel status v) = ["text/plain; charset=utf-8"] ∨
    contentTypesOf (JSON r heap fuel status v) = [ContentJSON ++ r.compiledCharset] := by
  unfold JSON
  cases jsonSerialize r.opt.IndentJSON heap fuel v with
  | error e => left; rfl
  | ok result =>
    right
    by_cases hp : 0 < r.opt.PrefixJSON.length <;>
      simp [hp, contentTypesOf, ContentType]

theorem xml_ct_cases (r : Renderer) (status : Nat) (v : GoValue) :
    contentTypesOf (XML r status v) = ["text/plain; charset=utf-8"] ∨
    contentTypesOf (XML r status v) = [ContentXML ++ r.compiledCharset] := by
  unfold XML
  cases xmlSerialize r.opt.IndentXML v with
  | error e => left; rfl
  | ok result =>
    right
    by_cases hp : 0 < r.opt.PrefixXML.length <;>
      simp [hp, contentTypesOf, ContentType]

theorem html_ct_cases (r : Renderer) (heap : Heap) (st : Pool) (fuel status : Nat)
    (name : String) (binding : GoValue) (hOpt : List HTMLOptions) :
    contentTypesOf (HTML r heap st fuel status name binding hOpt).1
      = ["text/plain; charset=utf-8"] ∨
    contentTypesOf (HTML r heap st fuel status name binding hOpt).1
      = [r.opt.HTMLContentType ++ r.compiledCharset] := by
  unfold HTML
  dsimp only
  split
  · left; rfl
  · right
    by_cases hL : 0 < (prepareHTMLOptions r hOpt).Layout.length <;>
      simp [hL, contentTypesOf, addYieldHtml, ContentType]

theorem text_ct_cases (r : Renderer) (heap : Heap) (st : Pool) (fuel status : Nat)
    (name : String) (binding : GoValue) (hOpt : List HTMLOptions) :
    contentTypesOf (TEXT r heap st fuel status name binding hOpt).1
      = ["text/plain; charset=utf-8"] ∨
    contentTypesOf (TEXT r heap st fuel status name binding hOpt).1
      = [r.opt.HTMLContentType ++ r.compiledCharset] := by
  unfold TEXT
  dsimp only
  split
  · left; rfl
  · right
    by_cases hL : 0 < (prepareHTMLOptions r hOpt).Layout.length <;>
      simp [hL, contentTypesOf, addYieldText, ContentType]

/-
Claim results.
-/

/-- C1: contrary to the claim, a TEXT call with a layout does not rebind the
yield and current helpers in the non-escaping tree.  addYieldText installs
the rebound pair on the html tree (line 443 calls r.ht.Funcs) and leaves the
text tree's compile-time placeholder in place, while the layout is executed
from the text tree; a layout body invoking yield therefore fails with
"yield called with no layout defined" and the call answers 500 instead of
rendering the inner template. -/
theorem c1_text_layout_rebinds_html_tree :
    (addYieldText demoRenderer "content" GoValue.null).tt.funcs
      = FuncBinding.placeholder ∧
    (addYieldText demoRenderer "content" GoValue.null).ht.funcs
      = FuncBinding.boundText "content" GoValue.null ∧
    (TEXT demoRenderer [] pool0 20 200 "content" GoValue.null [⟨"L", []⟩]).1
      = httpError "yield called with no layout defined" 500 ∧
    bodyOf (TEXT demoRenderer [] pool0 20 200 "content" GoValue.null [⟨"L", []⟩]).1
      ≠ "L[hi]" :=
  ⟨rfl, rfl, rfl, by decide⟩

/-- C2: contrary to the claim, the pooled buffer is not returned on every
code path.  On the plain success path one Get is matched by one Put, but on
the template-execution-failure early return the acquired buffer is never
Put, and during a layout render the buffer acquired inside the rebound
yield closure is never Put either (two Gets, one Put). -/
theorem c2_pooled_buffer_leak :
    (HTML demoRenderer [] pool0 20 200 "content" GoValue.null []).2.2
      = ⟨1, 1⟩ ∧
    (HTML demoRenderer [] pool0 20 200 "missing" GoValue.null []).2.2
      = ⟨1, 0⟩ ∧
    (TEXT demoRenderer [] pool0 20 200 "missing" GoValue.null []).2.2
      = ⟨1, 0⟩ ∧
    (HTML demoRenderer [] pool0 20 200 "content" GoValue.null [⟨"L", []⟩]).2.2
      = ⟨2, 1⟩ :=
  ⟨rfl, rfl, rfl, rfl⟩

/-- C3 counterexample: the Extra merge of HTML mutates the very map object
the caller passed in — Go maps are references and lines 309-314 assign into
the asserted map — so the heap cell of the caller's map is changed by the
call, refuting "the map object the caller passed in is unchanged". -/
theorem c3_extra_merge_mutates_counterexample :
    (HTML c3r c3heap pool0 20 200 "content" (GoValue.strMap 0) []).2.1
      = [(0, [("a", GoValue.str "1"), ("b", GoValue.str "2")])] ∧
    (HTML c3r c3heap pool0 20 200 "content" (GoValue.strMap 0) []).2.1 ≠ c3heap :=
  ⟨rfl, by decide⟩

/-- C3 amended: for every HTML call whose binding is a string-keyed map, the
configured extra pairs are merged into the caller's map in place — after the
call the map object holds its old entries updated with the extra pairs —
while TEXT never performs the merge and leaves the heap unchanged for every
call. -/
theorem c3_extra_merge_in_place (r : Renderer) (heap : Heap) (st : Pool)
    (fuel status : Nat) (name : String) (a : Nat)
    (m : List (String × GoValue)) (hOpt : List HTMLOptions)
    (hm : heapGet heap a = some m) :
    (HTML r heap st fuel status name (GoValue.strMap a) hOpt).2.1
      = heapSet heap a (mergeExtra m (prepareHTMLOptions r hOpt).Extra) ∧
    ∀ (binding : GoValue) (hOpt' : List HTMLOptions),
      (TEXT r heap st fuel status name binding hOpt').2.1 = heap := by
  constructor
  · unfold HTML
    dsimp only
    rw [hm]
    split <;> rfl
  · intro binding hOpt'
    unfold TEXT
    dsimp only
    split <;> rfl

/-- C3 witness: the amended statement at the concrete merge scenario. -/
theorem c3_extra_merge_in_place_witness :
    heapGet c3heap 0 = some [("a", GoValue.str "1")] ∧
    ((HTML c3r c3heap pool0 20 200 "content" (GoValue.strMap 0) []).2.1
        = heapSet c3heap 0
            (mergeExtra [("a", GoValue.str "1")] (prepareHTMLOptions c3r []).Extra) ∧
      ∀ (binding : GoValue) (hOpt' : List HTMLOptions),
        (TEXT c3r c3heap pool0 20 200 "content" binding hOpt').2.1 = c3heap) :=
  ⟨rfl, c3_extra_merge_in_place c3r c3heap pool0 20 200 "content" 0
    [("a", GoValue.str "1")] [] rfl⟩

/-- C4 counterexample: with the default extension list [".tmpl"], the file
"page.html.tmpl" — whose name's suffix matches ".tmpl" — is not registered
at all: getExt takes everything from the first dot, ".html.tmpl", which
equals no configured extension, so compile returns the trees containing
only the placeholder and no template named "page.html" exists. -/
theorem c4_suffix_match_counterexample :
    compile (prepareOptions []) [⟨"page.html.tmpl", none, some "hi"⟩]
      = .ok (initialTree "templates", initialTree "templates") ∧
    (compile (prepareOptions []) [⟨"page.html.tmpl", none, some "hi"⟩]).map
      (fun trees => lookupTmpl trees.1.tmpls "page.html") = .ok none ∧
    getExt "page.html.tmpl" = ".html.tmpl" ∧
    (prepareOptions []).Extensions = [".tmpl"] :=
  ⟨rfl, rfl, rfl, rfl⟩

/-- C4 amended: a walked file is registered exactly when getExt of its
relative path — the portion from the first dot onward, not any suffix —
equals one of the configured extensions; it is then registered in both
trees under the relative path with that extension stripped and separators
normalized to forward slashes. -/
theorem c4_first_dot_extension_registration (options : Options)
    (pre : List FSEntry) (e : FSEntry) (buf : String) (acc : Tree × Tree)
    (hw : runWalk options pre
        (initialTree options.Directory, initialTree options.Directory) = .ok acc)
    (hc : e.content = some buf)
    (hm : options.Extensions.contains (getExt e.rel) = true) :
    compile options (pre ++ [e])
      = .ok (registerTmpl acc.1
               (toSlash (strTake e.rel (e.rel.length - (getExt e.rel).length)))
               (parseTmpl buf),
             registerTmpl acc.2
               (toSlash (strTake e.rel (e.rel.length - (getExt e.rel).length)))
               (parseTmpl buf)) ∧
    lookupTmpl (registerTmpl acc.1
        (toSlash (strTake e.rel (e.rel.length - (getExt e.rel).length)))
        (parseTmpl buf)).tmpls
        (toSlash (strTake e.rel (e.rel.length - (getExt e.rel).length)))
      = some (parseTmpl buf) ∧
    lookupTmpl (registerTmpl acc.2
        (toSlash (strTake e.rel (e.rel.length - (getExt e.rel).length)))
        (parseTmpl buf)).tmpls
        (toSlash (strTake e.rel (e.rel.length - (getExt e.rel).length)))
      = some (parseTmpl buf) := by
  refine ⟨?_, ?_, ?_⟩
  · unfold compile
    rw [runWalk_append, hw]
    show runWalk options [e] acc = _
    have hmem : getExt e.rel ∈ options.Extensions := by simpa using hm
    simp [runWalk, walkStep, hmem, hc]
  · simp [registerTmpl, lookupTmpl, assocGet_upd_self]
  · simp [registerTmpl, lookupTmpl, assocGet_upd_self]

/-- C4 witness: the amended statement at a concrete one-file walk, with a
backslash separator normalized in the registered name. -/
theorem c4_first_dot_extension_registration_witness :
    runWalk (prepareOptions []) [] c4init = .ok c4init ∧
    c4entry.content = some "hi" ∧
    (prepareOptions []).Extensions.contains (getExt c4entry.rel) = true ∧
    (compile (prepareOptions []) ([] ++ [c4entry])
        = .ok (registerTmpl c4init.1 c4name (parseTmpl "hi"),
               registerTmpl c4init.2 c4name (parseTmpl "hi")) ∧
      lookupTmpl (registerTmpl c4init.1 c4name (parseTmpl "hi")).tmpls c4name
        = some (parseTmpl "hi") ∧
      lookupTmpl (registerTmpl c4init.2 c4name (parseTmpl "hi")).tmpls c4name
        = some (parseTmpl "hi")) ∧
    c4name = "sub/page" :=
  ⟨rfl, rfl, rfl,
    c4_first_dot_extension_registration (prepareOptions []) [] c4entry "hi"
      c4init rfl rfl rfl, rfl⟩

/-- C5: for every value whose chosen JSON serialization (indented when
IndentJSON is set, compact otherwise) succeeds, JSON(200, v) sets the
Content-Type to application/json with the charset suffix, writes status
200, and writes a body equal to the configured JSON prefix followed by the
serialized output. -/
theorem c5_json_success (ht tt : Tree) (opt : Options) (heap : Heap)
    (fuel : Nat) (v : GoValue) (s : String)
    (h : jsonSerialize opt.IndentJSON heap fuel v = .ok s) :
    contentTypesOf (JSON (mkRenderer ht tt opt) heap fuel 200 v)
      = [ContentJSON ++ prepareCharset opt.Charset] ∧
    statusesOf (JSON (mkRenderer ht tt opt) heap fuel 200 v) = [200] ∧
    bodyOf (JSON (mkRenderer ht tt opt) heap fuel 200 v)
      = opt.PrefixJSON ++ s := by
  have hb : (mkRenderer ht tt opt).opt.IndentJSON = opt.IndentJSON := rfl
  unfold JSON
  rw [hb, h]
  by_cases hp : 0 < opt.PrefixJSON.length
  · refine ⟨?_, ?_, ?_⟩ <;>
      simp [mkRenderer, hp, contentTypesOf, statusesOf, bodyOf, ContentType]
  · have hz : opt.PrefixJSON = "" :=
      str_len_zero (Nat.eq_zero_of_not_pos hp)
    refine ⟨?_, ?_, ?_⟩ <;>
      simp [mkRenderer, hp, hz, contentTypesOf, statusesOf, bodyOf, ContentType]

/-- C5 witness: the success path at a concrete string value under default
options. -/
theorem c5_json_success_witness :
    jsonSerialize (prepareOptions []).IndentJSON [] 5 (GoValue.str "x")
      = .ok "\"x\"" ∧
    (contentTypesOf (JSON (mkRenderer layoutTree layoutTree (prepareOptions []))
          [] 5 200 (GoValue.str "x"))
        = [ContentJSON ++ prepareCharset (prepareOptions []).Charset] ∧
      statusesOf (JSON (mkRenderer layoutTree layoutTree (prepareOptions []))
          [] 5 200 (GoValue.str "x")) = [200] ∧
      bodyOf (JSON (mkRenderer layoutTree layoutTree (prepareOptions []))
          [] 5 200 (GoValue.str "x"))
        = (prepareOptions []).PrefixJSON ++ "\"x\"") :=
  ⟨rfl, c5_json_success layoutTree layoutTree (prepareOptions []) [] 5
    (GoValue.str "x") "\"x\"" rfl⟩

/-- C6 counterexample: on serialization failure the body written by
http.Error is the error's message text followed by a newline (fmt.Fprintln),
not the bare message text the claim states. -/
theorem c6_error_body_counterexample :
    bodyOf (JSON demoRenderer [] 5 200 (GoValue.unsupported "chan int"))
      = "json: unsupported type: chan int" ++ "\n" ∧
    bodyOf (JSON demoRenderer [] 5 200 (GoValue.unsupported "chan int"))
      ≠ "json: unsupported type: chan int" ∧
    bodyOf (XML demoRenderer 200 (GoValue.strMap 0))
      ≠ "xml: unsupported type: map[string]interface \x7b\x7d" :=
  ⟨rfl, by decide, by decide⟩

/-- C6 amended: on serialization failure JSON and XML answer exactly
http.Error with the error text and 500 — status 500, a plain-text content
type instead of the success-path one, no prefix bytes or serialized output,
and a body equal to the error's message text followed by a newline. -/
theorem c6_error_path_newline (r : Renderer) (heap : Heap) (fuel status : Nat)
    (vj vx : GoValue) (ej ex : String)
    (hj : jsonSerialize r.opt.IndentJSON heap fuel vj = .error ej)
    (hx : xmlSerialize r.opt.IndentXML vx = .error ex) :
    JSON r heap fuel status vj = httpError ej 500 ∧
    XML r status vx = httpError ex 500 ∧
    statusesOf (httpError ej 500) = [500] ∧
    bodyOf (httpError ej 500) = ej ++ "\n" ∧
    contentTypesOf (httpError ej 500) = ["text/plain; charset=utf-8"] ∧
    bodyOf (httpError ex 500) = ex ++ "\n" := by
  refine ⟨?_, ?_, rfl, ?_, rfl, ?_⟩
  · unfold JSON; rw [hj]
  · unfold XML; rw [hx]
  · simp [bodyOf, httpError]
  · simp [bodyOf, httpError]

/-- C6 witness: the amended error path at concrete failing values. -/
theorem c6_error_path_newline_witness :
    jsonSerialize demoRenderer.opt.IndentJSON [] 5 (GoValue.unsupported "chan int")
      = .error "json: unsupported type: chan int" ∧
    xmlSerialize demoRenderer.opt.IndentXML (GoValue.strMap 0)
      = .error "xml: unsupported type: map[string]interface \x7b\x7d" ∧
    (JSON demoRenderer [] 5 200 (GoValue.unsupported "chan int")
        = httpError "json: unsupported type: chan int" 500 ∧
      XML demoRenderer 200 (GoValue.strMap 0)
        = httpError "xml: unsupported type: map[string]interface \x7b\x7d" 500 ∧
      statusesOf (httpError "json: unsupported type: chan int" 500) = [500] ∧
      bodyOf (httpError "json: unsupported type: chan int" 500)
        = "json: unsupported type: chan int" ++ "\n" ∧
      contentTypesOf (httpError "json: unsupported type: chan int" 500)
        = ["text/plain; charset=utf-8"] ∧
      bodyOf (httpError "xml: unsupported type: map[string]interface \x7b\x7d" 500)
        = "xml: unsupported type: map[string]interface \x7b\x7d" ++ "\n") :=
  ⟨rfl, rfl, c6_error_path_newline demoRenderer [] 5 200
    (GoValue.unsupported "chan int") (GoValue.strMap 0)
    "json: unsupported type: chan int"
    "xml: unsupported type: map[string]interface \x7b\x7d" rfl rfl⟩

/-- C7: with the escaping tree holding layout L with body "L[" yield "]"
and content "content" with body "hi", HTML(200, "content", nil, Layout L)
writes status 200 and body "L[hi]"; and for every layout render the
rebound current helper — installed by addYieldHtml and in effect while
the layout executes — returns the inner content name. -/
theorem c7_layout_yield_current :
    (HTML demoRenderer [] pool0 20 200 "content" GoValue.null [⟨"L", []⟩]).1
      = [HttpEvent.setHeader ContentType (ContentHTML ++ "; charset=UTF-8"),
         HttpEvent.writeHeader 200, HttpEvent.write "L[hi]"] ∧
    bodyOf (HTML demoRenderer [] pool0 20 200 "content" GoValue.null
        [⟨"L", []⟩]).1 = "L[hi]" ∧
    (∀ (r : Renderer) (name : String) (b : GoValue),
      (addYieldHtml r name b).ht.funcs = FuncBinding.boundHtml name b) ∧
    (∀ (r : Renderer) (name : String) (b : GoValue) (fuel : Nat)
        (st : Pool) (acc : String),
      execPieces r (fuel + 1) (FuncBinding.boundHtml name b)
          [Piece.currentCall] st acc = ((acc ++ name, none), st)) :=
  ⟨rfl, rfl, fun _ _ _ => rfl,
    fun r name _b fuel st acc =>
      execPieces_nil r fuel (FuncBinding.boundHtml name _b) st (acc ++ name)⟩

/-- C8 counterexample: a filesystem walk error does not abort compilation.
With a walk trace reporting "permission denied" for "sub" and then a good
template file "ok.tmpl", compile ignores the error (the callback shadows
its error argument and compile discards the walk's return value), registers
the later file and returns normally. -/
theorem c8_walk_error_counterexample :
    (compile (prepareOptions [])
        [⟨"sub", some "permission denied", none⟩, ⟨"ok.tmpl", none, some "hi"⟩]).map
      (fun trees => lookupTmpl trees.1.tmpls "ok") = .ok (some [Piece.lit "hi"]) ∧
    (compile (prepareOptions [])
        [⟨"sub", some "permission denied", none⟩,
         ⟨"ok.tmpl", none, some "hi"⟩]).toOption.isSome = true :=
  ⟨rfl, rfl⟩

/-- C8 amended: walk errors are ignored, not propagated: an errored entry
whose path matches no configured extension is simply skipped and
compilation continues and returns normally; a missing directory (walk trace
visiting only the root with an error) yields trees containing only the
initial placeholder template.  The only fatal path is the read-failure
panic for a matching entry. -/
theorem c8_walk_errors_ignored (options : Options) (e : FSEntry)
    (rest : List FSEntry) (m msg : String)
    (_he : e.walkErr = some m)
    (hx : options.Extensions.contains (getExt e.rel) = false) :
    compile options (e :: rest) = compile options rest ∧
    compile (prepareOptions []) [⟨".", some msg, none⟩]
      = .ok (initialTree "templates", initialTree "templates") := by
  constructor
  · have hmem : getExt e.rel ∉ options.Extensions := by simpa using hx
    simp [compile, runWalk, walkStep, hmem]
  · rfl

/-- C8 witness: the amended statement at the concrete errored-walk trace. -/
theorem c8_walk_errors_ignored_witness :
    (FSEntry.mk "sub" (some "permission denied") none).walkErr
      = some "permission denied" ∧
    (prepareOptions []).Extensions.contains
      (getExt (FSEntry.mk "sub" (some "permission denied") none).rel) = false ∧
    (compile (prepareOptions [])
        [⟨"sub", some "permission denied", none⟩, ⟨"ok.tmpl", none, some "hi"⟩]
        = compile (prepareOptions []) [⟨"ok.tmpl", none, some "hi"⟩] ∧
      compile (prepareOptions []) [⟨".", some "boom", none⟩]
        = .ok (initialTree "templates", initialTree "templates")) :=
  ⟨rfl, rfl, c8_walk_errors_ignored (prepareOptions [])
    ⟨"sub", some "permission denied", none⟩ [⟨"ok.tmpl", none, some "hi"⟩]
    "permission denied" "boom" rfl rfl⟩

/-- C9: Redirect with no status argument issues the redirect with 302
(http.StatusFound), and with exactly one status argument issues it with
that status. -/
theorem c9_redirect_status :
    ∀ (r : Renderer) (location : String),
      Redirect r location [] = [HttpEvent.redirect location 302] ∧
      ∀ (status : Nat),
        Redirect r location [status] = [HttpEvent.redirect location status] :=
  fun _ _ => ⟨rfl, fun _ => rfl⟩

/-- C10: prepareCharset always returns a suffix of the form "; charset=c"
with c non-empty — the configured charset when non-empty, UTF-8 otherwise —
the renderer is always built with that suffix, and the Content-Type set by
every JSON, XML, HTML and TEXT call (the success-path one as well as the
plain-text one of the error path) carries a non-empty charset parameter. -/
theorem c10_charset_always_present :
    (∀ cs : String,
      prepareCharset cs = "; charset=" ++ (if cs = "" then defaultCharset else cs) ∧
      (if cs = "" then defaultCharset else cs) ≠ "") ∧
    (∀ (ht tt : Tree) (opt : Options),
      (mkRenderer ht tt opt).compiledCharset = prepareCharset opt.Charset) ∧
    (∀ (ht tt : Tree) (opt : Options) (heap : Heap) (fuel status : Nat)
        (v : GoValue),
      ∃ base c, contentTypesOf (JSON (mkRenderer ht tt opt) heap fuel status v)
          = [base ++ ("; charset=" ++ c)] ∧ c ≠ "") ∧
    (∀ (ht tt : Tree) (opt : Options) (status : Nat) (v : GoValue),
      ∃ base c, contentTypesOf (XML (mkRenderer ht tt opt) status v)
          = [base ++ ("; charset=" ++ c)] ∧ c ≠ "") ∧
    (∀ (ht tt : Tree) (opt : Options) (heap : Heap) (st : Pool)
        (fuel status : Nat) (name : String) (binding : GoValue)
        (hOpt : List HTMLOptions),
      ∃ base c, contentTypesOf
            (HTML (mkRenderer ht tt opt) heap st fuel status name binding hOpt).1
          = [base ++ ("; charset=" ++ c)] ∧ c ≠ "") ∧
    (∀ (ht tt : Tree) (opt : Options) (heap : Heap) (st : Pool)
        (fuel status : Nat) (name : String) (binding : GoValue)
        (hOpt : List HTMLOptions),
      ∃ base c, contentTypesOf
            (TEXT (mkRenderer ht tt opt) heap st fuel status name binding hOpt).1
          = [base ++ ("; charset=" ++ c)] ∧ c ≠ "") := by
  have herr : ("text/plain; charset=utf-8" : String)
      = "text/plain" ++ ("; charset=" ++ "utf-8") := rfl
  have hcc : ∀ (ht tt : Tree) (opt : Options),
      (mkRenderer ht tt opt).compiledCharset
        = "; charset=" ++ (if opt.Charset = "" then defaultCharset else opt.Charset) :=
    fun _ _ opt => charset_split opt.Charset
  refine ⟨fun cs => ⟨charset_split cs, charset_tail_ne cs⟩,
    fun _ _ _ => rfl, ?_, ?_, ?_, ?_⟩
  · intro ht tt opt heap fuel status v
    rcases json_ct_cases (mkRenderer ht tt opt) heap fuel status v with h | h
    · exact ⟨"text/plain", "utf-8", by rw [h, herr], by decide⟩
    · refine ⟨ContentJSON, if opt.Charset = "" then defaultCharset else opt.Charset,
        ?_, charset_tail_ne opt.Charset⟩
      rw [h, hcc]
  · intro ht tt opt status v
    rcases xml_ct_cases (mkRenderer ht tt opt) status v with h | h
    · exact ⟨"text/plain", "utf-8", by rw [h, herr], by decide⟩
    · refine ⟨ContentXML, if opt.Charset = "" then defaultCharset else opt.Charset,
        ?_, charset_tail_ne opt.Charset⟩
      rw [h, hcc]
  · intro ht tt opt heap st fuel status name binding hOpt
    rcases html_ct_cases (mkRenderer ht tt opt) heap st fuel status name binding hOpt
      with h | h
    · exact ⟨"text/plain", "utf-8", by rw [h, herr], by decide⟩
    · refine ⟨opt.HTMLContentType,
        if opt.Charset = "" then defaultCharset else opt.Charset,
        ?_, charset_tail_ne opt.Charset⟩
      rw [h, hcc]
      all_goals rfl
  · intro ht tt opt heap st fuel status name binding hOpt
    rcases text_ct_cases (mkRenderer ht tt opt) heap st fuel status name binding hOpt
      with h | h
    · exact ⟨"text/plain", "utf-8", by rw [h, herr], by decide⟩
    · refine ⟨opt.HTMLContentType,
        if opt.Charset = "" then defaultCharset else opt.Charset,
        ?_, charset_tail_ne opt.Charset⟩
      rw [h, hcc]
      all_goals rfl

end Render
